import Mathlib

/-!
Shallow embedding of the gcp_testing repository (IMDb scraping pipeline and
Google-Sheets append sync) together with proofs about its behaviour.

The embedding follows the Python source:
  * `scraping_imdb.py` — source fetcher (`__download_source_imdb`), run-instant
    enrichment (`get_current_year`), deduplication (`__delete_repeats_by_imdb`);
  * `google_drive_api.py` — credential check (`check_credentials`) and the
    sync engine (`update_gsheet_data`).
-/

namespace GcpTesting

/-! ## Source Fetcher (`scraping_imdb.ScrapingImdb.__download_source_imdb`)

The network is modelled as a function from the attempt number (0-based) to the
outcome of that HTTP GET.  A `response` outcome carries the text obtained after
gzip decompression and UTF-8 decoding of the response body (decompression and
decoding are stdlib calls whose failures the `except` clause does not catch;
they are outside the transport-retry behaviour modelled here). -/

/-- Outcome of one HTTP attempt: a `requests` transport exception, or a
successful response carrying its decompressed UTF-8 text. -/
inductive AttemptResult where
  | transportError : AttemptResult
  | response : String → AttemptResult
deriving DecidableEq

/-- The retry loop of `__download_source_imdb`:
`attemps = 0; while attemps < 5: try request/decompress/return except RequestException: attemps += 1`.
Returns the result together with the total number of attempts issued. -/
def downloadGo (net : Nat → AttemptResult) (attemps : Nat) : Option String × Nat :=
  if _h : attemps < 5 then
    match net attemps with
    | AttemptResult.response s => (some s, attemps + 1)
    | AttemptResult.transportError => downloadGo net (attemps + 1)
  else
    (none, attemps)
termination_by 5 - attemps

/-- `__download_source_imdb`: run the retry loop from attempt 0; the Python
function returns the decoded text, or `None` after exhausting the 5 attempts. -/
def download_source_imdb (net : Nat → AttemptResult) : Option String :=
  (downloadGo net 0).1

/-! ## Run-instant enrichment (`scraping_imdb.get_current_year`)

Dates are modelled by their proleptic-Gregorian ordinal, as in Python's
`date.toordinal()`: ordinal 1 is 0001-01-01 (a Monday); every representable
`datetime` has ordinal at least 1.  Stepping a `datetime` back by
`timedelta(days=1)` decrements the ordinal of its date. -/

/-- `date.weekday()`: Monday = 0 … Sunday = 6, for the date of ordinal `n`. -/
def weekday (n : Nat) : Nat :=
  (n + 6) % 7

/-- The loop `while now.weekday() != 0: now -= timedelta(days=1)` of
`get_current_year`, acting on the ordinal.  The `1 ≤ n` guard only excludes
ordinal 0, which no Python `datetime` has (ordinal 1, the smallest, is already
a Monday, so the loop never leaves the valid range). -/
def mondayOnOrBefore (n : Nat) : Nat :=
  if h : 1 ≤ n ∧ weekday n ≠ 0 then mondayOnOrBefore (n - 1) else n
termination_by weekday n
decreasing_by
  simp only [weekday] at h ⊢
  omega

/-- Instrumented variant of the same loop counting its iterations. -/
def mondaySteps (n : Nat) : Nat :=
  if h : 1 ≤ n ∧ weekday n ≠ 0 then mondaySteps (n - 1) + 1 else 0
termination_by weekday n
decreasing_by
  simp only [weekday] at h ⊢
  omega

/-- Calendar year of the date with ordinal `n` (model of `date.year` via
`date.fromordinal`), computed by the standard civil-from-days algorithm,
shifted so that all intermediate quantities are natural numbers
(`n + 305` is the day count since 0000-03-01). -/
def civilYearOfOrdinal (n : Nat) : Nat :=
  let z := n + 305
  let era := z / 146097
  let doe := z % 146097
  let yoe := (doe - doe / 1460 + doe / 36524 - doe / 146096) / 365
  let y := yoe + era * 400
  let doy := doe - (365 * yoe + yoe / 4 - yoe / 100)
  let mp := (5 * doy + 2) / 153
  let m := if mp < 10 then mp + 3 else mp - 9
  if m ≤ 2 then y + 1 else y

/-- Model of Python's `date.isocalendar()[0]` (the ISO week-based year) by its
standard characterisation: the calendar year of the Thursday of the date's ISO
week, i.e. of `mondayOnOrBefore n + 3`. -/
def isocalendarYear (n : Nat) : Nat :=
  civilYearOfOrdinal (mondayOnOrBefore n + 3)

/-- `get_current_year`: step back to the most recent Monday, then take
`isocalendar()[0]` of that date. -/
def get_current_year (n : Nat) : Nat :=
  isocalendarYear (mondayOnOrBefore n)

/-! ## StructuredTable (pandas `DataFrame`)

A DataFrame is an ordered list of rows together with an index label per row and
an ordered list of column names.  Cell values are modelled as strings (the
remote read-back delivers strings; nothing in the verified claims depends on
the numeric interpretation of `rating`/`votes`).  Index labels are naturals:
in this program the index is always a (possibly shifted) `RangeIndex`. -/

/-- pandas `DataFrame`: column names, index labels and rows of cell values. -/
structure DataFrame where
  columns : List String
  index : List Nat
  rows : List (List String)
deriving DecidableEq, Repr

/-! ## Deduplicator (`scraping_imdb.ScrapingImdb.__delete_repeats_by_imdb`)

`df.drop_duplicates(subset='imdb', keep='first', inplace=True)`: keep the first
row for each value of the `imdb` column, in order; surviving rows keep their
index labels.  `drop_duplicates_by` is the generic first-occurrence filter,
threaded with the set of key values already seen. -/

/-- First-occurrence filter: drop every element whose key was seen before
(either in `seen` or earlier in the list). -/
def drop_duplicates_by {α κ : Type} [DecidableEq κ] (key : α → κ) :
    List κ → List α → List α
  | _, [] => []
  | seen, a :: rest =>
    if key a ∈ seen then drop_duplicates_by key seen rest
    else a :: drop_duplicates_by key (key a :: seen) rest

/-- The natural-key of a row: the cell in the column named `imdb`
(the `subset='imdb'` column of `drop_duplicates`; in this pipeline it is the
first column, `ScrapingImdb.__SOURCE`). -/
def imdbKey (columns : List String) (row : List String) : String :=
  row.getD (columns.indexOf "imdb") ""

/-- `__delete_repeats_by_imdb`: drop duplicate rows by the `imdb` column,
keeping the first occurrence; the index labels of surviving rows are kept
(the rows are paired with their index labels, filtered, and unzipped). -/
def delete_repeats_by_imdb (df : DataFrame) : DataFrame :=
  { df with
    index := (drop_duplicates_by (fun p => imdbKey df.columns p.2) []
      (df.index.zip df.rows)).map Prod.fst,
    rows := (drop_duplicates_by (fun p => imdbKey df.columns p.2) []
      (df.index.zip df.rows)).map Prod.snd }

/-! ## Sync Engine (`google_drive_api.GoogleDriveAPI.update_gsheet_data`)

The remote sheet is its list of occupied rows (row `r`, 1-based, is element
`r - 1`); `read_gsheet_file_content` returns exactly that list.  The single
`values().update` call of `update_gsheet_data` is modelled as a `WriteCall`
(start row of the written range, in A1 notation `A{startRow}`, plus the row
payload); raising the header-mismatch `Exception` is `Except.error`. -/

/-- The header-mismatch `Exception` of `update_gsheet_data`
(the spec's `SchemaMismatchFailure`). -/
inductive SyncError where
  | schemaMismatch : SyncError
deriving DecidableEq

/-- The one `sheet.values().update` call issued by `update_gsheet_data`:
range `A{startRow}` and the rows written there. -/
structure WriteCall where
  startRow : Nat
  values : List (List String)
deriving DecidableEq

/-- `update_gsheet_data` given the read-back content of the sheet, the
DataFrame and the `range` parameter (default `'A1'`, modelled by its row
number).  Returns the final state of the (mutated in place) DataFrame and
either the write call performed or the raised schema-mismatch error:

* `df.reset_index(drop=True, inplace=True)`;
* `df.index += 1 + len(existent_content)` if content exists, else `df.index += 2`;
* `data = [columns] + rows`;
* if content exists: raise on header mismatch, else drop the header from
  `data` and write at `'A' + str(len(existent_content) + 1)`;
* write `data` at the computed range. -/
def update_gsheet_data (existent_content : List (List String)) (df : DataFrame)
    (rangeStart : Nat) : DataFrame × Except SyncError WriteCall :=
  let df1 : DataFrame := { df with index := List.range df.rows.length }
  let df2 : DataFrame :=
    if 0 < existent_content.length then
      { df1 with index := df1.index.map (fun i => i + 1 + existent_content.length) }
    else
      { df1 with index := df1.index.map (fun i => i + 2) }
  let data := df2.columns :: df2.rows
  match existent_content with
  | [] => (df2, Except.ok ⟨rangeStart, data⟩)
  | existent_headers :: rest =>
    if existent_headers ≠ df2.columns then
      (df2, Except.error SyncError.schemaMismatch)
    else
      (df2, Except.ok ⟨(existent_headers :: rest).length + 1, data.drop 1⟩)

/-- Effect of a `values().update` call on the sheet: overlay `payload` on the
rows starting at 0-based offset `ofs`, keeping every other row; rows between
the old end and the written range are blank. -/
def overlayRows (sheet : List (List String)) (ofs : Nat) (payload : List (List String)) :
    List (List String) :=
  match ofs, sheet with
  | 0, s => payload ++ s.drop payload.length
  | o + 1, [] => [] :: overlayRows [] o payload
  | o + 1, r :: rs => r :: overlayRows rs o payload

/-- One sync step against a sheet: read the content back, run
`update_gsheet_data` with the default range `'A1'`, and apply the write call
(if any) to the sheet.  A raised error leaves the sheet unchanged. -/
def syncSheet (sheet : List (List String)) (df : DataFrame) : List (List String) :=
  match (update_gsheet_data sheet df 1).2 with
  | Except.error _ => sheet
  | Except.ok w => overlayRows sheet (w.startRow - 1) w.values

/-! ## Credential check (`google_drive_api.check_credentials`)

`credentials` is `None` unless the token file exists, in which case it is the
loaded credential object.  Line 30 (`if not credentials.valid:`) evaluates
`credentials.valid` unconditionally, which on `None` raises `AttributeError`.
The objects produced by `credentials.refresh(...)` and
`flow.run_local_server(...)` are opaque parameters. -/

/-- A `google.oauth2.credentials.Credentials` object, reduced to the three
attributes `check_credentials` inspects (`_refresh_token` is whether a refresh
token is present). -/
structure Cred where
  valid : Bool
  expired : Bool
  refresh_token : Bool
deriving DecidableEq

/-- The uncaught Python exception raised by attribute access on `None`. -/
inductive PyError where
  | attributeError : PyError
deriving DecidableEq

/-- `check_credentials`, given whether `token.json` exists, the credentials
loaded from it, and the results of refreshing / obtaining new credentials. -/
def check_credentials (tokenExists : Bool) (loaded refreshed obtained : Cred) :
    Except PyError Cred :=
  let credentials : Option Cred := if tokenExists then some loaded else none
  match credentials with
  | none => Except.error PyError.attributeError
  | some c =>
    if !c.valid then
      if c.expired && c.refresh_token then Except.ok refreshed
      else Except.ok obtained
    else Except.ok c

/-! ## Helper lemmas -/

/-- A run of transport failures advances the retry loop without changing its
result: if every attempt in `[a, a + d)` fails and `a + d ≤ 5`, the loop state
at attempt `a` reduces to the state at attempt `a + d`. -/
theorem downloadGo_skip_failures (net : Nat → AttemptResult) :
    ∀ (d a : Nat), a + d ≤ 5 →
      (∀ j, a ≤ j → j < a + d → net j = AttemptResult.transportError) →
      downloadGo net a = downloadGo net (a + d) := by
  intro d
  induction d with
  | zero => intro a h1 h2; rfl
  | succ d ih =>
    intro a h1 h2
    have ha : a < 5 := by omega
    have hnet : net a = AttemptResult.transportError :=
      h2 a (Nat.le_refl a) (by omega)
    rw [downloadGo, dif_pos ha, hnet]
    have h3 : a + (d + 1) = (a + 1) + d := by omega
    rw [h3]
    exact ih (a + 1) (by omega) (fun j hj1 hj2 => h2 j (by omega) (by omega))

/-- Evaluating the retry loop at an in-bounds successful attempt. -/
theorem downloadGo_success (net : Nat → AttemptResult) (a : Nat) (s : String)
    (ha : a < 5) (hs : net a = AttemptResult.response s) :
    downloadGo net a = (some s, a + 1) := by
  rw [downloadGo, dif_pos ha, hs]

/-- The retry loop halts with `None` once the attempt counter reaches 5. -/
theorem downloadGo_exhausted (net : Nat → AttemptResult) :
    downloadGo net 5 = (none, 5) := by
  rw [downloadGo, dif_neg (by omega)]

/-! ## Claim theorems: Source Fetcher -/

/-- C3: the fetcher issues at most 5 HTTP attempts.  If attempt `k` (0-based,
`k < 5`) succeeds after `k` consecutive transport failures, it returns the
decompressed UTF-8 text after exactly `k + 1` attempts; if the first 5 attempts
all fail with transport errors, it returns the failure value `none` after
exactly 5 attempts, with no 6th attempt issued. -/
theorem fetch_retry_bound (net : Nat → AttemptResult) :
    (∀ k s, k < 5 →
      (∀ j, j < k → net j = AttemptResult.transportError) →
      net k = AttemptResult.response s →
      download_source_imdb net = some s ∧ downloadGo net 0 = (some s, k + 1)) ∧
    ((∀ j, j < 5 → net j = AttemptResult.transportError) →
      download_source_imdb net = none ∧ downloadGo net 0 = (none, 5)) := by
  constructor
  · intro k s hk hfail hsucc
    have hskip : downloadGo net 0 = downloadGo net k := by
      have := downloadGo_skip_failures net k 0 (by omega) (by
        intro j hj1 hj2
        exact hfail j (by omega))
      simpa using this
    have : downloadGo net 0 = (some s, k + 1) := by
      rw [hskip]
      exact downloadGo_success net k s hk hsucc
    exact ⟨by simp [download_source_imdb, this], this⟩
  · intro hfail
    have hskip : downloadGo net 0 = downloadGo net 5 := by
      have := downloadGo_skip_failures net 5 0 (by omega) (by
        intro j hj1 hj2
        exact hfail j (by omega))
      simpa using this
    have : downloadGo net 0 = (none, 5) := by
      rw [hskip]
      exact downloadGo_exhausted net
    exact ⟨by simp [download_source_imdb, this], this⟩

/-- A network that fails on attempts 0–3 and succeeds on attempt 4. -/
def netRecoverExample : Nat → AttemptResult := fun j =>
  if j < 4 then AttemptResult.transportError else AttemptResult.response "ok"

/-- A network whose every attempt fails with a transport error. -/
def netFailExample : Nat → AttemptResult := fun _ =>
  AttemptResult.transportError

/-- Witness for C3: 4 failures then a success yields the text in 5 attempts;
5 failures yield the failure value in exactly 5 attempts. -/
theorem fetch_retry_bound_witness :
    (download_source_imdb netRecoverExample = some "ok" ∧
      downloadGo netRecoverExample 0 = (some "ok", 5)) ∧
    (download_source_imdb netFailExample = none ∧
      downloadGo netFailExample 0 = (none, 5)) :=
  ⟨(fetch_retry_bound netRecoverExample).1 4 "ok" (by decide)
      (by decide) (by decide),
   (fetch_retry_bound netFailExample).2 (by intro j hj; rfl)⟩

/-! ## Claim theorems: credential check -/

/-- C9: when the token file does not exist, `check_credentials` dereferences
the null credential at the validity check (`if not credentials.valid:`) and
raises `AttributeError`, instead of proceeding to obtain new credentials. -/
theorem check_credentials_null_deref (loaded refreshed obtained : Cred) :
    check_credentials false loaded refreshed obtained =
      Except.error PyError.attributeError := rfl

/-! ## Claim theorems: `get_current_year` loop -/

/-- Joint closed form for the Monday loop: on any valid ordinal it returns
`n - weekday n` after exactly `weekday n` iterations. -/
theorem monday_loop_closed_form :
    ∀ (w n : Nat), weekday n = w → 1 ≤ n →
      mondayOnOrBefore n = n - w ∧ mondaySteps n = w := by
  intro w
  induction w with
  | zero =>
    intro n hw hn
    have hcond : ¬(1 ≤ n ∧ weekday n ≠ 0) := by simp [hw]
    constructor
    · rw [mondayOnOrBefore, dif_neg hcond]; omega
    · rw [mondaySteps, dif_neg hcond]
  | succ w ih =>
    intro n hw hn
    have hn2 : 2 ≤ n := by
      by_contra h
      have hn1 : n = 1 := by omega
      subst hn1
      simp only [weekday] at hw
      omega
    have hcond : 1 ≤ n ∧ weekday n ≠ 0 := ⟨hn, by omega⟩
    have hw2 : weekday (n - 1) = w := by
      simp only [weekday] at hw ⊢
      omega
    have hrec := ih (n - 1) hw2 (by omega)
    constructor
    · rw [mondayOnOrBefore, dif_pos hcond, hrec.1]; omega
    · rw [mondaySteps, dif_pos hcond, hrec.2]

/-- C10: on every valid ordinal (`1 ≤ n`, as for every representable
`datetime`), the `while now.weekday() != 0` loop of `get_current_year`
terminates after exactly `weekday n` iterations, which is at most 6, and
lands on `n - weekday n`, the most recent Monday on or before `n`. -/
theorem monday_loop_terminates (n : Nat) (hn : 1 ≤ n) :
    mondaySteps n = weekday n ∧ mondaySteps n ≤ 6 ∧
    mondayOnOrBefore n = n - weekday n := by
  have h := monday_loop_closed_form (weekday n) n rfl hn
  refine ⟨h.2, ?_, h.1⟩
  rw [h.2]
  simp only [weekday]
  omega

/-- Witness for C10 at ordinal 738521 (2023-01-01, a Sunday). -/
theorem monday_loop_terminates_witness :
    mondaySteps 738521 = weekday 738521 ∧ mondaySteps 738521 ≤ 6 ∧
    mondayOnOrBefore 738521 = 738521 - weekday 738521 :=
  monday_loop_terminates 738521 (by decide)

/-- Stepping back to the most recent Monday is idempotent: the loop's result
is itself a Monday, so running the loop on it is the identity. -/
theorem mondayOnOrBefore_idem (n : Nat) (hn : 1 ≤ n) :
    mondayOnOrBefore (mondayOnOrBefore n) = mondayOnOrBefore n := by
  have hclosed := (monday_loop_closed_form (weekday n) n rfl hn).1
  have hub : weekday n ≤ n - 1 := by
    simp only [weekday]
    omega
  have hmon : weekday (n - weekday n) = 0 := by
    simp only [weekday]
    omega
  have h1 : 1 ≤ n - weekday n := by omega
  rw [hclosed]
  have := (monday_loop_closed_form (weekday (n - weekday n)) (n - weekday n)
    rfl h1).1
  rw [hmon] at this
  omega

/-- C8: `get_current_year` equals the ISO calendar year of the most recent
Monday on or before the run's date, and equivalently the ISO week-based year
(`isocalendar()[0]`) of the run's date itself, for every valid ordinal. -/
theorem current_year_iso (n : Nat) (hn : 1 ≤ n) :
    get_current_year n = isocalendarYear (mondayOnOrBefore n) ∧
    get_current_year n = isocalendarYear n := by
  refine ⟨rfl, ?_⟩
  unfold get_current_year isocalendarYear
  rw [mondayOnOrBefore_idem n hn]

/-- Witness for C8 at ordinal 738521 (2023-01-01, whose ISO year is 2022). -/
theorem current_year_iso_witness :
    get_current_year 738521 = isocalendarYear (mondayOnOrBefore 738521) ∧
    get_current_year 738521 = isocalendarYear 738521 :=
  current_year_iso 738521 (by decide)

/-! ## Claim theorems: Sync Engine -/

/-- Writing immediately after the last occupied row appends the payload. -/
theorem overlayRows_at_end :
    ∀ (s p : List (List String)), overlayRows s s.length p = s ++ p := by
  intro s
  induction s with
  | nil =>
    intro p
    simp [overlayRows]
  | cons r rs ih =>
    intro p
    simp only [List.length_cons, overlayRows, List.cons_append]
    rw [ih]

/-- C4: syncing a table of M rows into a sheet whose read-back content is
empty issues one write at range `A1` whose payload is the header row followed
by the M data rows, so the header lands at remote row 1 and the data rows at
remote rows 2 through M+1. -/
theorem fresh_write_correct (df : DataFrame) :
    (update_gsheet_data [] df 1).2 = Except.ok ⟨1, df.columns :: df.rows⟩ ∧
    syncSheet [] df = df.columns :: df.rows ∧
    (syncSheet [] df).getD 0 [] = df.columns ∧
    ∀ i, i < df.rows.length → (syncSheet [] df).getD (i + 1) [] = df.rows.getD i [] := by
  have hupd : (update_gsheet_data [] df 1).2 = Except.ok ⟨1, df.columns :: df.rows⟩ := by
    simp [update_gsheet_data]
  have hsheet : syncSheet [] df = df.columns :: df.rows := by
    rw [syncSheet, hupd]
    simp [overlayRows]
  refine ⟨hupd, hsheet, ?_, ?_⟩
  · rw [hsheet]; rfl
  · intro i hi
    rw [hsheet]
    simp [List.getD_cons_succ]

/-- C2: syncing a table of M rows into a sheet with N ≥ 1 existing rows whose
first row equals the table's column list issues one write at range `A(N+1)`
whose payload is exactly the M data rows (header omitted); the resulting sheet
is the old rows followed by the new ones, so rows 1..N are untouched and rows
N+1..N+M hold the table's rows. -/
theorem append_offset_correct (sheet : List (List String)) (df : DataFrame)
    (h1 : sheet ≠ []) (h2 : sheet.head? = some df.columns) :
    (update_gsheet_data sheet df 1).2 = Except.ok ⟨sheet.length + 1, df.rows⟩ ∧
    syncSheet sheet df = sheet ++ df.rows ∧
    (∀ i, i < sheet.length → (syncSheet sheet df).getD i [] = sheet.getD i []) ∧
    (∀ i, i < df.rows.length →
      (syncSheet sheet df).getD (sheet.length + i) [] = df.rows.getD i []) := by
  match sheet, h1 with
  | h :: t, _ =>
    have hh : h = df.columns := by
      simpa using h2
    have hupd : (update_gsheet_data (h :: t) df 1).2 =
        Except.ok ⟨(h :: t).length + 1, df.rows⟩ := by
      simp [update_gsheet_data, hh]
    have hsheet : syncSheet (h :: t) df = (h :: t) ++ df.rows := by
      rw [syncSheet, hupd]
      simp only [List.length_cons, Nat.add_sub_cancel]
      exact overlayRows_at_end (h :: t) df.rows
    refine ⟨hupd, hsheet, ?_, ?_⟩
    · intro i hi
      rw [hsheet]
      rcases Nat.lt_or_ge i (h :: t).length with hlt | hge
      · rw [List.getD_append _ _ _ _ hlt]
      · omega
    · intro i hi
      rw [hsheet]
      rw [List.getD_append_right _ _ _ _ (by omega)]
      congr 1
      omega

/-- A concrete table used to instantiate the sync-engine theorems. -/
def dfExample : DataFrame :=
  ⟨["imdb", "rating", "votes"], [0, 1], [["tt1", "7.5", "10"], ["tt2", "8.1", "5"]]⟩

/-- A remote sheet whose header matches `dfExample` and holding one data row. -/
def sheetExample : List (List String) :=
  [["imdb", "rating", "votes"], ["tt0", "6.0", "2"]]

/-- Witness for C2: appending 2 rows to a 2-row sheet writes at `A3` and
leaves the prior rows in place. -/
theorem append_offset_correct_witness :
    (update_gsheet_data sheetExample dfExample 1).2 =
      Except.ok ⟨sheetExample.length + 1, dfExample.rows⟩ ∧
    syncSheet sheetExample dfExample = sheetExample ++ dfExample.rows := by
  have h := append_offset_correct sheetExample dfExample (by decide) (by decide)
  exact ⟨h.1, h.2.1⟩

/-- C1: if the sheet's read-back content is non-empty and its first row
differs from the table's column list, `update_gsheet_data` raises the
schema-mismatch failure, issues no write call, and the sheet is unchanged. -/
theorem schema_guard (sheet : List (List String)) (df : DataFrame)
    (h1 : sheet ≠ []) (h2 : sheet.head? ≠ some df.columns) :
    (update_gsheet_data sheet df 1).2 = Except.error SyncError.schemaMismatch ∧
    syncSheet sheet df = sheet := by
  match sheet, h1 with
  | h :: t, _ =>
    have hh : h ≠ df.columns := by
      intro he
      exact h2 (by simp [he])
    have hupd : (update_gsheet_data (h :: t) df 1).2 =
        Except.error SyncError.schemaMismatch := by
      simp [update_gsheet_data, hh]
    refine ⟨hupd, ?_⟩
    rw [syncSheet, hupd]

/-- A remote sheet whose header differs from `dfExample`'s column list. -/
def sheetMismatchExample : List (List String) :=
  [["imdb", "rating"], ["tt0", "6.0"]]

/-- Witness for C1: a header of different length triggers the schema guard
and the sheet is unchanged. -/
theorem schema_guard_witness :
    (update_gsheet_data sheetMismatchExample dfExample 1).2 =
      Except.error SyncError.schemaMismatch ∧
    syncSheet sheetMismatchExample dfExample = sheetMismatchExample :=
  schema_guard sheetMismatchExample dfExample (by decide) (by decide)

/-- Counterexample to C7: `update_gsheet_data` mutates the DataFrame in
place — on a fresh write the index `[0, 1]` becomes `[2, 3]`, so the table
is not left unchanged. -/
theorem sync_mutates_index :
    (update_gsheet_data [] dfExample 1).1 ≠ dfExample := by decide

/-- C7 (amended): the sync step leaves the table's columns, rows and values
unchanged, but mutates the index in place: it is reset to `0..M-1` and then
shifted by `1 + N` (N = number of existing remote rows) on an append, or by
2 on a fresh write. -/
theorem sync_frame_effect (content : List (List String)) (df : DataFrame)
    (rangeStart : Nat) :
    (update_gsheet_data content df rangeStart).1.columns = df.columns ∧
    (update_gsheet_data content df rangeStart).1.rows = df.rows ∧
    (update_gsheet_data content df rangeStart).1.index =
      (if 0 < content.length then
        (List.range df.rows.length).map (fun i => i + 1 + content.length)
      else
        (List.range df.rows.length).map (fun i => i + 2)) := by
  match content with
  | [] => simp [update_gsheet_data]
  | h :: t =>
    rcases eq_or_ne h df.columns with hc | hc <;>
      simp [update_gsheet_data, hc]

/-! ## Deduplicator lemmas -/

/-- The first-occurrence filter yields a subsequence of its input. -/
theorem drop_duplicates_by_sublist {α κ : Type} [DecidableEq κ] (key : α → κ) :
    ∀ (seen : List κ) (l : List α), (drop_duplicates_by key seen l).Sublist l := by
  intro seen l
  induction l generalizing seen with
  | nil => simp [drop_duplicates_by]
  | cons a rest ih =>
    simp only [drop_duplicates_by]
    by_cases hmem : key a ∈ seen
    · simp only [if_pos hmem]
      exact (ih seen).cons a
    · simp only [if_neg hmem]
      exact (ih (key a :: seen)).cons₂ a

/-- No element with an already-seen key survives the filter. -/
theorem drop_duplicates_by_filter_seen {α κ : Type} [DecidableEq κ] (key : α → κ)
    (k : κ) : ∀ (seen : List κ) (l : List α), k ∈ seen →
      (drop_duplicates_by key seen l).filter (fun a => decide (key a = k)) = [] := by
  intro seen l
  induction l generalizing seen with
  | nil => intro hk; simp [drop_duplicates_by]
  | cons a rest ih =>
    intro hk
    simp only [drop_duplicates_by]
    by_cases hmem : key a ∈ seen
    · simp only [if_pos hmem]
      exact ih seen hk
    · simp only [if_neg hmem]
      have hne : key a ≠ k := fun he => hmem (he ▸ hk)
      rw [List.filter_cons, if_neg (by simp [hne])]
      exact ih (key a :: seen) (List.mem_cons_of_mem _ hk)

/-- For a key not yet seen, exactly the first element carrying it survives:
the filtered output is the singleton of `find?` on the input. -/
theorem drop_duplicates_by_filter_first {α κ : Type} [DecidableEq κ] (key : α → κ)
    (k : κ) : ∀ (seen : List κ) (l : List α), k ∉ seen →
      (drop_duplicates_by key seen l).filter (fun a => decide (key a = k)) =
        (l.find? (fun a => decide (key a = k))).toList := by
  intro seen l
  induction l generalizing seen with
  | nil => intro hk; simp [drop_duplicates_by]
  | cons a rest ih =>
    intro hk
    simp only [drop_duplicates_by]
    by_cases hmem : key a ∈ seen
    · simp only [if_pos hmem]
      have hne : key a ≠ k := fun he => hk (he ▸ hmem)
      rw [List.find?_cons_of_neg _ (by simp [hne])]
      exact ih seen hk
    · simp only [if_neg hmem]
      by_cases hak : key a = k
      · rw [List.filter_cons, if_pos (by simp [hak]),
          List.find?_cons_of_pos _ (by simp [hak]),
          drop_duplicates_by_filter_seen key k (key a :: seen) rest
            (by simp [hak])]
        rfl
      · rw [List.filter_cons, if_neg (by simp [hak]),
          List.find?_cons_of_neg _ (by simp [hak])]
        exact ih (key a :: seen) (by
          intro hmem2
          rcases List.mem_cons.mp hmem2 with he | hs
          · exact hak he.symm
          · exact hk hs)

/-- Every survivor's key was not in the initial seen set. -/
theorem drop_duplicates_by_key_not_seen {α κ : Type} [DecidableEq κ] (key : α → κ) :
    ∀ (seen : List κ) (l : List α) (a : α),
      a ∈ drop_duplicates_by key seen l → key a ∉ seen := by
  intro seen l
  induction l generalizing seen with
  | nil => simp [drop_duplicates_by]
  | cons a rest ih =>
    intro b hb
    simp only [drop_duplicates_by] at hb
    by_cases hmem : key a ∈ seen
    · rw [if_pos hmem] at hb
      exact ih seen b hb
    · rw [if_neg hmem] at hb
      rcases List.mem_cons.mp hb with he | hs
      · subst he; exact hmem
      · have := ih (key a :: seen) b hs
        exact fun hx => this (List.mem_cons_of_mem _ hx)

/-- The surviving keys are pairwise distinct. -/
theorem drop_duplicates_by_keys_nodup {α κ : Type} [DecidableEq κ] (key : α → κ) :
    ∀ (seen : List κ) (l : List α),
      ((drop_duplicates_by key seen l).map key).Nodup := by
  intro seen l
  induction l generalizing seen with
  | nil => simp [drop_duplicates_by]
  | cons a rest ih =>
    simp only [drop_duplicates_by]
    by_cases hmem : key a ∈ seen
    · simp only [if_pos hmem]
      exact ih seen
    · simp only [if_neg hmem]
      simp only [List.map_cons, List.nodup_cons]
      refine ⟨?_, ih (key a :: seen)⟩
      intro hmem2
      rcases List.mem_map.mp hmem2 with ⟨b, hb, hkb⟩
      exact drop_duplicates_by_key_not_seen key (key a :: seen) rest b hb
        (hkb ▸ List.mem_cons_self _ _)

/-- On input whose keys are pairwise distinct and unseen, the filter is the
identity. -/
theorem drop_duplicates_by_eq_self {α κ : Type} [DecidableEq κ] (key : α → κ) :
    ∀ (seen : List κ) (l : List α), (l.map key).Nodup →
      (∀ a ∈ l, key a ∉ seen) → drop_duplicates_by key seen l = l := by
  intro seen l
  induction l generalizing seen with
  | nil => intro h1 h2; simp [drop_duplicates_by]
  | cons a rest ih =>
    intro h1 h2
    simp only [List.map_cons, List.nodup_cons] at h1
    have hmem : key a ∉ seen := h2 a (List.mem_cons_self a rest)
    simp only [drop_duplicates_by, if_neg hmem]
    congr 1
    refine ih (key a :: seen) h1.2 ?_
    intro b hb hbs
    rcases List.mem_cons.mp hbs with he | hs
    · exact h1.1 (he ▸ List.mem_map_of_mem key hb)
    · exact h2 b (List.mem_cons_of_mem a hb) hs

/-- The first-occurrence filter is idempotent. -/
theorem drop_duplicates_by_idem {α κ : Type} [DecidableEq κ] (key : α → κ)
    (l : List α) :
    drop_duplicates_by key [] (drop_duplicates_by key [] l) =
      drop_duplicates_by key [] l :=
  drop_duplicates_by_eq_self key [] _ (drop_duplicates_by_keys_nodup key [] l)
    (by simp)

/-- Deduplicating index-row pairs by a key of the row commutes with dropping
the index labels. -/
theorem map_snd_drop_duplicates_by {α β κ : Type} [DecidableEq κ] (key : β → κ) :
    ∀ (seen : List κ) (l : List (α × β)),
      (drop_duplicates_by (fun p => key p.2) seen l).map Prod.snd =
        drop_duplicates_by key seen (l.map Prod.snd) := by
  intro seen l
  induction l generalizing seen with
  | nil => simp [drop_duplicates_by]
  | cons p rest ih =>
    simp only [List.map_cons, drop_duplicates_by]
    by_cases hmem : key p.2 ∈ seen
    · simp only [if_pos hmem]
      exact ih seen
    · simp only [if_neg hmem, List.map_cons]
      rw [ih (key p.2 :: seen)]

/-- Zipping the two projections of a pair list recovers the list. -/
theorem zip_map_fst_snd_self {α β : Type} :
    ∀ (l : List (α × β)), (l.map Prod.fst).zip (l.map Prod.snd) = l := by
  intro l
  induction l with
  | nil => rfl
  | cons p rest ih => simp [ih]

/-! ## Claim theorems: Deduplicator -/

/-- C5: deduplication keeps, for every natural-key value occurring in the
table, exactly the first row carrying it (`find?` returns the row of lowest
original index), and the surviving rows form a subsequence of the original
rows, preserving their relative order. -/
theorem dedup_keeps_first (df : DataFrame) (k : String) (r : List String)
    (hlen : df.index.length = df.rows.length)
    (hfind : df.rows.find? (fun x => decide (imdbKey df.columns x = k)) = some r) :
    (delete_repeats_by_imdb df).rows.Sublist df.rows ∧
    (delete_repeats_by_imdb df).rows.filter
      (fun x => decide (imdbKey df.columns x = k)) = [r] := by
  have hsnd : (df.index.zip df.rows).map Prod.snd = df.rows :=
    List.map_snd_zip df.index df.rows (by omega)
  have hrows : (delete_repeats_by_imdb df).rows =
      drop_duplicates_by (imdbKey df.columns) [] df.rows := by
    show (drop_duplicates_by (fun p => imdbKey df.columns p.2) []
        (df.index.zip df.rows)).map Prod.snd = _
    rw [map_snd_drop_duplicates_by, hsnd]
  constructor
  · rw [hrows]
    exact drop_duplicates_by_sublist _ _ _
  · rw [hrows,
      drop_duplicates_by_filter_first (imdbKey df.columns) k [] df.rows
        (by simp),
      hfind]
    rfl

/-- A table with a duplicated natural key, used to instantiate C5. -/
def dfDupExample : DataFrame :=
  ⟨["imdb", "rating", "votes"], [0, 1, 2],
    [["tt1", "7.5", "10"], ["tt2", "8.1", "5"], ["tt1", "7.5", "10"]]⟩

/-- Witness for C5: in a table with `tt1` at indices 0 and 2, the survivor for
key `tt1` is exactly the index-0 row, and the output is a subsequence. -/
theorem dedup_keeps_first_witness :
    (delete_repeats_by_imdb dfDupExample).rows.Sublist dfDupExample.rows ∧
    (delete_repeats_by_imdb dfDupExample).rows.filter
      (fun x => decide (imdbKey dfDupExample.columns x = "tt1")) =
        [["tt1", "7.5", "10"]] :=
  dedup_keeps_first dfDupExample "tt1" ["tt1", "7.5", "10"] (by decide) (by decide)

/-- C6: deduplication is idempotent on every table, and on a table whose
natural-key values are already pairwise distinct it is a no-op. -/
theorem dedup_idempotent (df : DataFrame) :
    delete_repeats_by_imdb (delete_repeats_by_imdb df) = delete_repeats_by_imdb df ∧
    (df.index.length = df.rows.length →
      (df.rows.map (imdbKey df.columns)).Nodup →
      delete_repeats_by_imdb df = df) := by
  constructor
  · show ({ delete_repeats_by_imdb df with
      index := _, rows := _ } : DataFrame) = delete_repeats_by_imdb df
    simp only [delete_repeats_by_imdb, zip_map_fst_snd_self]
    rw [drop_duplicates_by_idem]
  · intro hlen hnodup
    have hsnd : (df.index.zip df.rows).map Prod.snd = df.rows :=
      List.map_snd_zip df.index df.rows (by omega)
    have hfst : (df.index.zip df.rows).map Prod.fst = df.index :=
      List.map_fst_zip df.index df.rows (by omega)
    have hkeys : ((df.index.zip df.rows).map
        (fun p => imdbKey df.columns p.2)).Nodup := by
      have : (df.index.zip df.rows).map (fun p => imdbKey df.columns p.2) =
          ((df.index.zip df.rows).map Prod.snd).map (imdbKey df.columns) := by
        rw [List.map_map]
        rfl
      rw [this, hsnd]
      exact hnodup
    have heq : drop_duplicates_by (fun p => imdbKey df.columns p.2) []
        (df.index.zip df.rows) = df.index.zip df.rows :=
      drop_duplicates_by_eq_self _ [] _ hkeys (by simp)
    show ({ df with index := _, rows := _ } : DataFrame) = df
    rw [heq, hsnd, hfst]

/-- A table whose natural-key values are pairwise distinct, for C6. -/
def dfUniqExample : DataFrame :=
  ⟨["imdb", "rating", "votes"], [0, 1],
    [["tt1", "7.5", "10"], ["tt2", "8.1", "5"]]⟩

/-- Witness for C6: dedup is idempotent on `dfDupExample`, and a no-op on the
already-unique `dfUniqExample`. -/
theorem dedup_idempotent_witness :
    delete_repeats_by_imdb (delete_repeats_by_imdb dfDupExample) =
      delete_repeats_by_imdb dfDupExample ∧
    delete_repeats_by_imdb dfUniqExample = dfUniqExample :=
  ⟨(dedup_idempotent dfDupExample).1,
   (dedup_idempotent dfUniqExample).2 (by decide) (by decide)⟩

end GcpTesting
